import Mathlib

/-!
Verification of the Ludo rules engine in `script.js`.

The board geometry (`createLudoGridPath`), the piece predicates
(`canTokenMove`, `getBoardCoordForPosition`), the move application
(`applyMove`), and the turn flow (`rollBtn` click handler, board click
handler, `postMoveAdvance`, `nextTurn`, `createGame`) are embedded as
pure Lean functions below.  Token positions are modelled as `Int`
(the source uses -1 as the at-base sentinel), board coordinates as
`Int × Int`, and the mutable `gameState` as an explicit `GameState`
value threaded through the intent functions.
-/

namespace Ludo

/-- The sign function used by the source (`Math.sign`). -/
def signI (a : Int) : Int := if 0 < a then 1 else if a < 0 then -1 else 0

/-- Embeds the `while (x !== x1 || y !== y1)` loop of `pushLine`: step by
(dx, dy) until the end point is reached, emitting each visited cell.  The
fuel is the exact number of steps the loop takes for an axis-aligned
segment. -/
def walkLine (dx dy x1 y1 : Int) : Nat → Int → Int → List (Int × Int)
  | 0, _, _ => []
  | fuel + 1, x, y =>
    if x = x1 ∧ y = y1 then []
    else
      (x + dx, y + dy) :: walkLine dx dy x1 y1 fuel (x + dx) (y + dy)

/-- Embeds `pushLine(x0, y0, x1, y1)`: pushes the start cell, then walks to
the end cell one step at a time. -/
def pushLine (x0 y0 x1 y1 : Int) : List (Int × Int) :=
  (x0, y0) ::
    walkLine (signI (x1 - x0)) (signI (y1 - y0)) x1 y1
      ((x1 - x0).natAbs + (y1 - y0).natAbs) x0 y0

/-- The raw ring of `createLudoGridPath`: the twelve `pushLine` segments in
source order (corners are duplicated, deduplication follows). -/
def ringRaw : List (Int × Int) :=
  pushLine 6 1 8 1 ++ pushLine 8 1 8 6 ++ pushLine 8 6 13 6 ++
  pushLine 13 6 13 8 ++ pushLine 13 8 8 8 ++ pushLine 8 8 8 13 ++
  pushLine 8 13 6 13 ++ pushLine 6 13 6 8 ++ pushLine 6 8 1 8 ++
  pushLine 1 8 1 6 ++ pushLine 1 6 6 6 ++ pushLine 6 6 6 1

/-- Embeds the dedup loop: keep the first occurrence of each coordinate,
preserving order (`seen` accumulates the coordinates already kept). -/
def dedupAux : List (Int × Int) → List (Int × Int) → List (Int × Int)
  | _, [] => []
  | seen, p :: ps =>
    if p ∈ seen then dedupAux seen ps else p :: dedupAux (p :: seen) ps

/-- The deduplicated ring (`dedup` in the source). It has 48 cells. -/
def ringDedup : List (Int × Int) := dedupAux [] ringRaw

/-- Embeds the `while (full.length < 52)` fill loop: the source re-walks the
deduplicated ring, appending cells until 52 entries exist.  Since the
deduplicated ring has 48 cells this is the first 52 cells of two copies, so
the final four entries repeat the first four coordinates. -/
def ringFull : List (Int × Int) := (ringDedup ++ ringDedup).take 52

/-- The per-player home stretches of `createLudoGridPath` (five cells each,
leading toward the center).  Note every listed cell also occurs on the
shared ring. -/
def homeStretches : List (List (Int × Int)) :=
  [ [(6, 2), (6, 3), (6, 4), (6, 5), (6, 6)],
    [(12, 6), (11, 6), (10, 6), (9, 6), (8, 6)],
    [(8, 12), (8, 11), (8, 10), (8, 9), (8, 8)],
    [(2, 8), (3, 8), (4, 8), (5, 8), (6, 8)] ]

/-- Starting tile indexes for each player on the ring (`startIdx`). -/
def startIdx : List Int := [0, 13, 26, 39]

/-- Entry tiles to the home stretch (`entryIdx`). -/
def entryIdx : List Int := [10, 23, 36, 49]

/-- The center cell (`center`), the finished slot. -/
def center : Int × Int := (7, 7)

/-- The quantity `(entry - start + ringLen) % ringLen` recomputed in
`getBoardCoordForPosition`, `canTokenMove` and `applyMove`.  For the four
configured players it evaluates to 10. -/
def stepsToEntry (playerId : Nat) : Int :=
  (entryIdx.getD playerId 0 - startIdx.getD playerId 0 + 52) % 52

/-- A token of the source data model: `id` 0..3 within its player,
`position` -1 for the home yard else an index on the player path, and the
`finished` flag. -/
structure Token where
  id : Nat
  position : Int
  finished : Bool
deriving DecidableEq

/-- A player: `id` 0..3 and four tokens.  The presentation-only `color`
and the always-empty `path` fields are omitted. -/
structure Player where
  id : Nat
  tokens : List Token
deriving DecidableEq

/-- The `GameState` of the source: active players, current player index,
the last dice value (null between turns), the awaiting-move flag, and the
game-over flag. -/
structure GameState where
  numPlayers : Nat
  players : List Player
  currentPlayerIdx : Nat
  dice : Option Int
  awaitingMove : Bool
  gameOver : Bool
deriving DecidableEq

/-- Embeds `getBoardCoordForPosition(playerId, position)`: ring cells for
positions up to `stepsToEntry`, then the five home-stretch cells, then the
center; `none` models the null returned for the home yard and for
positions past the center. -/
def getBoardCoordForPosition (playerId : Nat) (position : Int) :
    Option (Int × Int) :=
  if position < 0 then none
  else
    let s := stepsToEntry playerId
    if position ≤ s then
      ringFull.get? ((startIdx.getD playerId 0 + position) % 52).toNat
    else
      let homeIdx := position - s - 1
      if 0 ≤ homeIdx ∧ homeIdx < 5 then
        (homeStretches.getD playerId []).get? homeIdx.toNat
      else if homeIdx = 5 then some center
      else none

/-- Embeds `canTokenMove(playerId, token, dice)`. -/
def canTokenMove (playerId : Nat) (t : Token) (dice : Int) : Bool :=
  if t.finished then false
  else if t.position = -1 then decide (dice = 6)
  else decide (t.position + dice ≤ stepsToEntry playerId + 5)

/-- The mutation `applyMove` performs on the moved token itself: enter at
position 0 from the yard, otherwise advance by the dice, and set the
`finished` flag when the new position is the center slot
(`homeIdx === 5`). -/
def stepToken (playerId : Nat) (t : Token) (dice : Int) : Token :=
  let p := if t.position = -1 then 0 else t.position + dice
  { t with
    position := p
    finished := if p - stepsToEntry playerId - 1 = 5 then true else t.finished }

/-- The per-token capture test of `applyMove`: an opposing token that is on
the board, not finished, and whose board coordinate equals the landing
coordinate `pc` is sent back to the yard (`position = -1`). -/
def captureToken (pid : Nat) (pc : Int × Int) (ot : Token) : Token :=
  if ot.position < 0 ∨ ot.finished then ot
  else
    match getBoardCoordForPosition pid ot.position with
    | some oc => if oc = pc then { ot with position := -1 } else ot
    | none => ot

/-- The capture scan of `applyMove`: every player other than the mover (by
id) has `captureToken` applied to each token. -/
def capturePlayers (moverId : Nat) (pc : Int × Int) (players : List Player) :
    List Player :=
  players.map fun other =>
    if other.id = moverId then other
    else { other with tokens := other.tokens.map (captureToken other.id pc) }

/-- Replace the first list entry satisfying `p` by its image under `f`,
leaving the rest untouched.  This models the in-place mutation of the one
token object the source handlers pass to `applyMove`. -/
def updateFirst (p : α → Bool) (f : α → α) : List α → List α
  | [] => []
  | x :: xs => if p x then f x :: xs else x :: updateFirst p f xs

/-- Embeds `applyMove(state, player, token, dice)`.  The source receives
the player and token objects by reference; here the mover is addressed by
its index in `players` and the token by its value.  The token is stepped,
then — when the new position is not on the home stretch and has a board
coordinate — every opposing token sharing that coordinate is reset. -/
def applyMove (st : GameState) (moverIdx : Nat) (tok : Token) (d : Int) :
    GameState :=
  match st.players.get? moverIdx with
  | none => st
  | some pl =>
    let tok' := stepToken pl.id tok d
    let players1 := st.players.set moverIdx
      { pl with
        tokens := updateFirst (fun t => decide (t = tok)) (fun _ => tok')
          pl.tokens }
    let players2 :=
      if stepsToEntry pl.id < tok'.position then players1
      else
        match getBoardCoordForPosition pl.id tok'.position with
        | some pc => capturePlayers pl.id pc players1
        | none => players1
  { st with players := players2 }

/-- Embeds `allTokensFinished(player)`. -/
def allTokensFinished (pl : Player) : Bool := pl.tokens.all (·.finished)

/-- The player object the handlers fetch as
`gameState.players[gameState.currentPlayerIdx]`. -/
def currentPlayer (st : GameState) : Option Player :=
  st.players.get? st.currentPlayerIdx

/-- Embeds `nextTurn()`: advance the player index cyclically and clear the
dice. -/
def nextTurn (st : GameState) : GameState :=
  { st with
    currentPlayerIdx := (st.currentPlayerIdx + 1) % st.numPlayers
    dice := none }

/-- Embeds `postMoveAdvance(current, dice)`: declare the game over when the
mover has finished all tokens; otherwise keep the turn (state untouched,
dice included) on a 6, else pass the turn. -/
def postMoveAdvance (st : GameState) (d : Int) : GameState :=
  match currentPlayer st with
  | none => st
  | some current =>
    if allTokensFinished current then { st with gameOver := true }
    else if d = 6 then st
    else nextTurn st

/-- The movable-token filter of the roll handler:
`current.tokens.filter(t => canTokenMove(current.id, t, dice))`. -/
def movables (pl : Player) (d : Int) : List Token :=
  pl.tokens.filter fun t => canTokenMove pl.id t d

/-- Embeds the `rollBtn` click handler with the random dice value `d`
injected: rejected while the game is over or a move is awaited; otherwise
the dice is stored, and depending on the movable set the turn passes, the
single move is auto-applied, or the state awaits a token selection. -/
def rollDice (st : GameState) (d : Int) : GameState :=
  if st.gameOver then st
  else if st.awaitingMove then st
  else
    let st1 := { st with dice := some d }
    match currentPlayer st1 with
    | none => st1
    | some current =>
      match movables current d with
      | [] => nextTurn st1
      | [t] => postMoveAdvance (applyMove st1 st1.currentPlayerIdx t d) d
      | _ => { st1 with awaitingMove := true }

/-- Embeds the board click handler with the hit-test resolved to a token id
of the current player: rejected unless a move is awaited; the clicked token
must satisfy `canTokenMove`, otherwise nothing happens; on success the move
is applied, the awaiting flag cleared, and the post-move step runs. -/
def selectToken (st : GameState) (tokenId : Nat) : GameState :=
  if st.awaitingMove = false then st
  else
    match currentPlayer st, st.dice with
    | some current, some d =>
      match current.tokens.find? (fun t => decide (t.id = tokenId)) with
      | some t =>
        if canTokenMove current.id t d then
          postMoveAdvance
            (applyMove { st with awaitingMove := false }
              st.currentPlayerIdx t d) d
        else st
      | none => st
    | _, _ => st

/-- Embeds `createGame(numPlayers)`: players 0..numPlayers-1, each with
four tokens in the yard; no validation of the player count is performed.
`startGame` stores this value as the fresh `gameState`. -/
def createGame (numPlayers : Nat) : GameState :=
  { numPlayers := numPlayers
    players := (List.range numPlayers).map fun i =>
      { id := i
        tokens := (List.range 4).map fun t =>
          { id := t, position := -1, finished := false } }
    currentPlayerIdx := 0
    dice := none
    awaitingMove := false
    gameOver := false }

/-- The states reachable from a fresh match through the two public
intents. -/
inductive Reachable : GameState → Prop where
  | init : ∀ n, Reachable (createGame n)
  | roll : ∀ st d, Reachable st → Reachable (rollDice st d)
  | select : ∀ st tid, Reachable st → Reachable (selectToken st tid)

/-- Modelled from the spec: the code defines no safe set; the spec
describes a fixed set of 8 ring indices, each player entry cell
(`startIdx`) plus 4 additional evenly spaced cells. -/
def SAFE_SET : List Int := [0, 13, 26, 39, 8, 21, 34, 47]

/-- A fresh token with index `i`, as produced by `createGame`. -/
def baseToken (i : Nat) : Token := { id := i, position := -1, finished := false }

/-- A token of player 0 in home-lane slot 3 (path position 14, since
`stepsToEntry 0 = 10`). -/
def C1tok : Token := { id := 0, position := 14, finished := false }

/-- A token of player 0 in the last home-lane slot (path position 15). -/
def C4tok : Token := { id := 0, position := 15, finished := false }

/-- Player 0 with one token just entered and three tokens parked on the
last ring cell they can occupy (position 10), so that a roll of 6 has
exactly one movable token and is auto-applied. -/
def stC6 : GameState :=
  { numPlayers := 2
    players :=
      [ { id := 0
          tokens := [{ id := 0, position := 0, finished := false },
            { id := 1, position := 10, finished := false },
            { id := 2, position := 10, finished := false },
            { id := 3, position := 10, finished := false }] }
      , { id := 1, tokens := [baseToken 0, baseToken 1, baseToken 2, baseToken 3] } ]
    currentPlayerIdx := 0
    dice := none
    awaitingMove := false
    gameOver := false }

/-- All four tokens of the current player in the yard and a roll of 3. -/
def stC7 : GameState :=
  { numPlayers := 2
    players :=
      [ { id := 0, tokens := [baseToken 0, baseToken 1, baseToken 2, baseToken 3] }
      , { id := 1, tokens := [baseToken 0, baseToken 1, baseToken 2, baseToken 3] } ]
    currentPlayerIdx := 0
    dice := none
    awaitingMove := false
    gameOver := false }

/-- A state awaiting a move where the token named 0 cannot move with the
stored dice of 5 (target 17 exceeds the cap of 15). -/
def stC8a : GameState :=
  { numPlayers := 2
    players :=
      [ { id := 0
          tokens := [{ id := 0, position := 12, finished := false },
            { id := 1, position := 0, finished := false },
            baseToken 2, baseToken 3] }
      , { id := 1, tokens := [baseToken 0, baseToken 1, baseToken 2, baseToken 3] } ]
    currentPlayerIdx := 0
    dice := some 5
    awaitingMove := true
    gameOver := false }

/-- A finished game with no move awaited. -/
def stC8b : GameState :=
  { numPlayers := 2
    players :=
      [ { id := 0, tokens := [baseToken 0, baseToken 1, baseToken 2, baseToken 3] }
      , { id := 1, tokens := [baseToken 0, baseToken 1, baseToken 2, baseToken 3] } ]
    currentPlayerIdx := 0
    dice := none
    awaitingMove := false
    gameOver := true }

/-- Player 0 has two on-track tokens (so that the roll of 3 awaits a
selection); player 1 has its token 0 in its home lane, on home-stretch
cell (8, 6) (path position 15), which coincides with ring cell 7. -/
def stC3 : GameState :=
  { numPlayers := 2
    players :=
      [ { id := 0
          tokens := [{ id := 0, position := 4, finished := false },
            { id := 1, position := 0, finished := false },
            baseToken 2, baseToken 3] }
      , { id := 1
          tokens := [{ id := 0, position := 15, finished := false },
            baseToken 1, baseToken 2, baseToken 3] } ]
    currentPlayerIdx := 0
    dice := some 3
    awaitingMove := true
    gameOver := false }

/-- Player 0 about to enter a yard token on a roll of 6 (all four yard
tokens are movable, so the state awaits a selection); player 3 has token 0
on ring position 9, i.e. ring index 48, whose board coordinate (6, 1) is
the same cell as ring index 0 — the entry cell of player 0. -/
def stC2 : GameState :=
  { numPlayers := 4
    players :=
      [ { id := 0, tokens := [baseToken 0, baseToken 1, baseToken 2, baseToken 3] }
      , { id := 1, tokens := [baseToken 0, baseToken 1, baseToken 2, baseToken 3] }
      , { id := 2, tokens := [baseToken 0, baseToken 1, baseToken 2, baseToken 3] }
      , { id := 3
          tokens := [{ id := 0, position := 9, finished := false },
            baseToken 1, baseToken 2, baseToken 3] } ]
    currentPlayerIdx := 0
    dice := some 6
    awaitingMove := true
    gameOver := false }

/-- The per-player part of the inductive invariant for C10: exactly four
tokens, none finished. -/
def tokensOK (pl : Player) : Prop :=
  pl.tokens.length = 4 ∧ ∀ t ∈ pl.tokens, t.finished = false

/-- The inductive invariant for C10: the game is not over and every player
satisfies `tokensOK`. -/
def Inv (st : GameState) : Prop :=
  st.gameOver = false ∧ ∀ pl ∈ st.players, tokensOK pl

-- Sanity checks of the geometry against the source values.
-- Sanity checks of the geometry against the source values.
example : ringDedup.length = 48 := by decide

example : ringFull.length = 52 := by decide

example : ringFull.get? 0 = some (6, 1) := by decide

example : ringFull.get? 7 = some (8, 6) := by decide

example : ringFull.get? 48 = some (6, 1) := by decide

example : stepsToEntry 0 = 10 ∧ stepsToEntry 1 = 10 ∧
    stepsToEntry 2 = 10 ∧ stepsToEntry 3 = 10 := by decide

lemma updateFirst_length (p : α → Bool) (f : α → α) (l : List α) :
    (updateFirst p f l).length = l.length := by
  induction l with
  | nil => rfl
  | cons x xs ih =>
    unfold updateFirst
    split <;> simp [ih]

lemma updateFirst_pred {P : α → Prop} (p : α → Bool) (f : α → α) (l : List α)
    (hall : ∀ x ∈ l, P x) (hf : ∀ x ∈ l, P (f x)) :
    ∀ y ∈ updateFirst p f l, P y := by
  induction l with
  | nil => intro y hy; cases hy
  | cons x xs ih =>
    intro y hy
    unfold updateFirst at hy
    split at hy
    · rcases List.mem_cons.mp hy with rfl | hy
      · exact hf x (by simp)
      · exact hall y (by simp [hy])
    · rcases List.mem_cons.mp hy with rfl | hy
      · exact hall y (by simp)
      · exact ih (fun z hz => hall z (by simp [hz]))
          (fun z hz => hf z (by simp [hz])) y hy

lemma captureToken_finished (pid : Nat) (pc : Int × Int) (ot : Token) :
    (captureToken pid pc ot).finished = ot.finished := by
  unfold captureToken
  split
  · rfl
  · split
    · split <;> rfl
    · rfl

lemma canTokenMove_not_finished (pid : Nat) (t : Token) (d : Int)
    (h : canTokenMove pid t d = true) : t.finished = false := by
  unfold canTokenMove at h
  cases hfin : t.finished
  · rfl
  · rw [hfin] at h; simp at h

lemma stepToken_not_finished (pid : Nat) (t : Token) (d : Int)
    (h : canTokenMove pid t d = true) : (stepToken pid t d).finished = false := by
  have hfin : t.finished = false := canTokenMove_not_finished pid t d h
  have hs : 0 ≤ stepsToEntry pid := Int.emod_nonneg _ (by norm_num)
  have hp5 : ¬((if t.position = -1 then (0 : Int) else t.position + d) -
      stepsToEntry pid - 1 = 5) := by
    by_cases hp : t.position = -1
    · rw [if_pos hp]; omega
    · rw [if_neg hp]
      unfold canTokenMove at h
      rw [hfin] at h
      simp only [Bool.false_eq_true, if_false, if_neg hp, decide_eq_true_eq] at h
      omega
  unfold stepToken
  dsimp only
  rw [if_neg hp5, hfin]

lemma capturePlayers_get? (mid : Nat) (pc : Int × Int) (l : List Player) (j : Nat) :
    (capturePlayers mid pc l).get? j =
      (l.get? j).map fun q =>
        if q.id = mid then q
        else { q with tokens := q.tokens.map (captureToken q.id pc) } := by
  unfold capturePlayers
  rw [List.get?_eq_getElem?, List.get?_eq_getElem?, List.getElem?_map]

/-- The shape of the player list after `applyMove` when the mover lands on
the ring (not the home stretch) with landing coordinate `pc`: the mover
token is replaced within its player, then the capture scan runs. -/
lemma applyMove_players_eq (st : GameState) (i : Nat) (tok : Token) (d : Int)
    (pl : Player) (hg : st.players.get? i = some pl)
    (hring : ¬ stepsToEntry pl.id < (stepToken pl.id tok d).position)
    (pc : Int × Int)
    (hpc : getBoardCoordForPosition pl.id (stepToken pl.id tok d).position = some pc) :
    (applyMove st i tok d).players =
      capturePlayers pl.id pc
        (st.players.set i
          { pl with tokens := (updateFirst (fun t => decide (t = tok))
              (fun _ => stepToken pl.id tok d) pl.tokens) }) := by
  unfold applyMove
  rw [hg]
  dsimp only
  rw [if_neg hring, hpc]

lemma inv_createGame (n : Nat) : Inv (createGame n) := by
  constructor
  · rfl
  · intro pl hpl
    simp only [createGame, List.mem_map] at hpl
    obtain ⟨i, _, rfl⟩ := hpl
    constructor
    · simp
    · intro t ht
      simp only [List.mem_map, List.mem_range] at ht
      obtain ⟨k, _, rfl⟩ := ht
      rfl

lemma tokensOK_capture (mid : Nat) (pc : Int × Int) (l : List Player)
    (h : ∀ q ∈ l, tokensOK q) : ∀ q ∈ capturePlayers mid pc l, tokensOK q := by
  intro q hq
  unfold capturePlayers at hq
  rw [List.mem_map] at hq
  obtain ⟨r, hr, rfl⟩ := hq
  by_cases hid : r.id = mid
  · simpa [hid] using h r hr
  · rw [if_neg hid]
    obtain ⟨hlen, hfin⟩ := h r hr
    constructor
    · simpa using hlen
    · intro t ht
      simp only [List.mem_map] at ht
      obtain ⟨s, hs, rfl⟩ := ht
      rw [captureToken_finished]
      exact hfin s hs

lemma tokensOK_set (l : List Player) (i : Nat) (newpl : Player)
    (h1 : tokensOK newpl) (h2 : ∀ q ∈ l, tokensOK q) :
    ∀ q ∈ l.set i newpl, tokensOK q := by
  intro q hq
  rcases List.mem_or_eq_of_mem_set hq with h | rfl
  · exact h2 q h
  · exact h1

lemma applyMove_frame (st : GameState) (i : Nat) (tok : Token) (d : Int) :
    (applyMove st i tok d).gameOver = st.gameOver ∧
    (applyMove st i tok d).currentPlayerIdx = st.currentPlayerIdx ∧
    (applyMove st i tok d).numPlayers = st.numPlayers ∧
    (applyMove st i tok d).dice = st.dice ∧
    (applyMove st i tok d).awaitingMove = st.awaitingMove := by
  unfold applyMove
  cases st.players.get? i <;> exact ⟨rfl, rfl, rfl, rfl, rfl⟩

lemma applyMove_tokensOK (st : GameState) (i : Nat) (tok : Token) (d : Int)
    (hall : ∀ pl ∈ st.players, tokensOK pl)
    (hcan : ∀ pl, st.players.get? i = some pl → canTokenMove pl.id tok d = true) :
    ∀ q ∈ (applyMove st i tok d).players, tokensOK q := by
  unfold applyMove
  cases hg : st.players.get? i with
  | none => exact hall
  | some pl =>
    have hpl : tokensOK pl := hall pl (List.get?_mem hg)
    have hnew : tokensOK
        { pl with tokens := (updateFirst (fun t => decide (t = tok))
            (fun _ => stepToken pl.id tok d) pl.tokens) } := by
      constructor
      · show (updateFirst _ _ pl.tokens).length = 4
        rw [updateFirst_length]; exact hpl.1
      · intro t ht
        exact updateFirst_pred _ _ _ hpl.2
          (fun x _ => stepToken_not_finished pl.id tok d (hcan pl hg)) t ht
    have hset := tokensOK_set st.players i _ hnew hall
    intro q hq
    dsimp only at hq
    split at hq
    · exact hset q hq
    · split at hq
      · exact tokensOK_capture _ _ _ hset q hq
      · exact hset q hq

lemma allTokensFinished_of_tokensOK (pl : Player) (h : tokensOK pl) :
    allTokensFinished pl = false := by
  obtain ⟨hlen, hfin⟩ := h
  unfold allTokensFinished
  cases e : pl.tokens.all (·.finished) with
  | false => rfl
  | true =>
    exfalso
    have hne : pl.tokens ≠ [] := by
      intro h0
      rw [h0] at hlen
      simp at hlen
    obtain ⟨t, ht⟩ := List.exists_mem_of_ne_nil _ hne
    have he := List.all_eq_true.mp e t ht
    rw [hfin t ht] at he
    exact Bool.false_ne_true he

lemma postMoveAdvance_inv (st : GameState) (d : Int) (h : Inv st) :
    Inv (postMoveAdvance st d) := by
  unfold postMoveAdvance
  split
  · exact h
  · rename_i cur hc
    have hok : tokensOK cur := h.2 cur (List.get?_mem hc)
    rw [allTokensFinished_of_tokensOK cur hok]
    simp only [Bool.false_eq_true, if_false]
    split
    · exact h
    · exact ⟨h.1, h.2⟩

lemma rollDice_inv (st : GameState) (d : Int) (h : Inv st) :
    Inv (rollDice st d) := by
  unfold rollDice
  split
  · exact h
  · split
    · exact h
    · dsimp only
      split
      · exact ⟨h.1, h.2⟩
      · rename_i current hc
        split
        · exact ⟨h.1, h.2⟩
        · rename_i t hmv
          have hc2 : ({ st with dice := some d } : GameState).players.get?
              ({ st with dice := some d } : GameState).currentPlayerIdx =
              some current := hc
          have hcan : ∀ pl, ({ st with dice := some d } : GameState).players.get?
              ({ st with dice := some d } : GameState).currentPlayerIdx = some pl →
              canTokenMove pl.id t d = true := by
            intro pl hpl
            have he : current = pl := Option.some.inj (hc2.symm.trans hpl)
            have ht : t ∈ movables current d := by
              rw [hmv]
              exact List.mem_cons_self t []
            unfold movables at ht
            rw [← he]
            exact (List.mem_filter.mp ht).2
          refine postMoveAdvance_inv _ d
            ⟨?_, applyMove_tokensOK _ _ t d h.2 hcan⟩
          exact (applyMove_frame _ _ _ _).1.trans h.1
        · exact ⟨h.1, h.2⟩

lemma selectToken_inv (st : GameState) (tid : Nat) (h : Inv st) :
    Inv (selectToken st tid) := by
  unfold selectToken
  split
  · exact h
  · split
    · rename_i current d hc hd
      split
      · rename_i t hfind
        by_cases hcond : canTokenMove current.id t d = true
        · rw [if_pos hcond]
          have hc2 : ({ st with awaitingMove := false } : GameState).players.get?
              ({ st with awaitingMove := false } : GameState).currentPlayerIdx =
              some current := hc
          have hcan : ∀ pl,
              ({ st with awaitingMove := false } : GameState).players.get?
              ({ st with awaitingMove := false } : GameState).currentPlayerIdx =
              some pl → canTokenMove pl.id t d = true := by
            intro pl hpl
            have he : current = pl := Option.some.inj (hc2.symm.trans hpl)
            rw [← he]
            exact hcond
          refine postMoveAdvance_inv _ d
            ⟨?_, applyMove_tokensOK _ _ t d h.2 hcan⟩
          exact (applyMove_frame _ _ _ _).1.trans h.1
        · rw [if_neg hcond]
          exact h
      · exact h
    · exact h

/-- C1: for a piece in home-lane slot `h` and a roll `d` with
`h + d = H = 5`, the spec declares the move legal with transition to
Finished.  The code disagrees: `canTokenMove` caps targets at
`stepsToEntry + 5`, which excludes the finish position
`stepsToEntry + 6`, even though `applyMove` itself would set the
`finished` flag exactly there (and the in-code comment claims the cap
allows the exact center).  Evaluated at the failing input of the claim,
`InHomeLane(3)` with roll 2: the token sits in home-lane slot 3, the
exact-finish roll 2 is rejected, yet stepping it would land on the
center slot and mark it finished; the overshoot roll 3 is rejected as
the claim says. -/
theorem C1_home_exact_finish_rejected :
    (14 : Int) - stepsToEntry 0 - 1 = 3 ∧
    canTokenMove 0 C1tok 2 = false ∧
    (stepToken 0 C1tok 2).position - stepsToEntry 0 - 1 = 5 ∧
    (stepToken 0 C1tok 2).finished = true ∧
    canTokenMove 0 C1tok 3 = false := by decide

/-- C2 counterexample: player 0 enters its token at ring index 0 — its own
entry cell, a member of the safe set — yet the opposing token of player 3
standing on that very cell (ring index 48, same coordinate (6, 1)) is
captured and reset to the yard.  The code implements no safe-cell check at
all, so landing on a safe-set index does not prevent capture. -/
theorem C2_counterexample :
    (0 : Int) ∈ SAFE_SET ∧
    ringFull.get? 0 = ringFull.get? 48 ∧
    stC2.players.get? 3 =
      some { id := 3
             tokens := [{ id := 0, position := 9, finished := false },
               baseToken 1, baseToken 2, baseToken 3] } ∧
    (selectToken stC2 0).players.get? 3 =
      some { id := 3, tokens := [baseToken 0, baseToken 1, baseToken 2, baseToken 3] } := by
  decide

/-- C2 amended: the code implements no safe cells.  Even when the landing
ring index of the mover belongs to the safe set the spec describes, every
opposing unfinished on-board piece whose board coordinate equals the
landing coordinate is still captured and reset to the yard. -/
theorem C2_safe_set_gives_no_immunity (st : GameState) (i : Nat) (tok : Token)
    (d : Int) (pl : Player) (hg : st.players.get? i = some pl)
    (hring : (stepToken pl.id tok d).position ≤ stepsToEntry pl.id)
    (pc : Int × Int)
    (hpc : getBoardCoordForPosition pl.id (stepToken pl.id tok d).position = some pc)
    (_hsafe : (startIdx.getD pl.id 0 + (stepToken pl.id tok d).position) % 52 ∈ SAFE_SET)
    (j : Nat) (q : Player) (ot : Token)
    (hj : j ≠ i) (hq : st.players.get? j = some q) (hqid : q.id ≠ pl.id)
    (hot : ot ∈ q.tokens) (h0 : 0 ≤ ot.position) (hf : ot.finished = false)
    (hoc : getBoardCoordForPosition q.id ot.position = some pc) :
    ∃ q', (applyMove st i tok d).players.get? j = some q' ∧
      { ot with position := -1 } ∈ q'.tokens := by
  rw [applyMove_players_eq st i tok d pl hg (not_lt.mpr hring) pc hpc]
  rw [capturePlayers_get?, List.get?_set_ne _ _ hj.symm, hq]
  have hct : captureToken q.id pc ot = { ot with position := -1 } := by
    unfold captureToken
    rw [if_neg (by simp [hf]; omega), hoc]
    simp
  refine ⟨{ q with tokens := q.tokens.map (captureToken q.id pc) },
    by simp [hqid], ?_⟩
  rw [← hct]
  exact List.mem_map_of_mem (captureToken q.id pc) hot

/-- Witness for the amended C2 at the concrete counterexample state:
player 0 enters at ring index 0 (a safe-set member) and the opposing
token of player 3 on that cell is reset. -/
theorem C2_safe_set_gives_no_immunity_witness :
    ∃ q', (applyMove stC2 0 (baseToken 0) 6).players.get? 3 = some q' ∧
      ({ id := 0, position := 9, finished := false } : Token).position = 9 ∧
      ({ id := 0, position := -1, finished := false } : Token) ∈ q'.tokens := by
  obtain ⟨q', hq', hmem⟩ :=
    C2_safe_set_gives_no_immunity stC2 0 (baseToken 0) 6
      { id := 0, tokens := [baseToken 0, baseToken 1, baseToken 2, baseToken 3] }
      (by decide) (by decide) (6, 1) (by decide) (by decide) 3
      { id := 3
        tokens := [{ id := 0, position := 9, finished := false },
          baseToken 1, baseToken 2, baseToken 3] }
      { id := 0, position := 9, finished := false }
      (by decide) (by decide) (by decide) (by decide) (by decide) (by decide)
      (by decide)
  exact ⟨q', hq', rfl, hmem⟩

/-- C3 counterexample: player 1 token 0 sits in its private home lane
(path position 15, beyond `stepsToEntry`), yet when player 0 moves token 0
from position 4 by 3 — landing on ring cell 7, which shares the board
coordinate (8, 6) with that home-lane cell — the home-lane token is
captured and reset to the yard.  This refutes the claim that opposing
pieces in their private home lane are never captured. -/
theorem C3_counterexample :
    stepsToEntry 1 < 15 ∧
    getBoardCoordForPosition 1 15 = some (8, 6) ∧
    getBoardCoordForPosition 0 7 = some (8, 6) ∧
    (selectToken stC3 0).players.get? 1 =
      some { id := 1, tokens := [baseToken 0, baseToken 1, baseToken 2, baseToken 3] } := by
  decide

/-- C3 amended: when an applied move lands the mover on the shared ring at
board coordinate `pc`, the mover's own player only has its moved token
replaced — its other pieces are never affected — while EVERY opposing
player has `captureToken` applied to each token: exactly the opposing
unfinished on-board tokens whose board coordinate equals `pc` are reset
to the yard.  Because home-stretch cells and four duplicated ring cells
share coordinates with ring cells, this includes opposing pieces in their
private home lane and pieces at a different ring index whose cell
coincides with the landing cell; tokens at any other coordinate are left
untouched. -/
theorem C3_capture_by_coordinate (st : GameState) (i : Nat) (tok : Token) (d : Int)
    (pl : Player) (hg : st.players.get? i = some pl)
    (hring : (stepToken pl.id tok d).position ≤ stepsToEntry pl.id)
    (pc : Int × Int)
    (hpc : getBoardCoordForPosition pl.id (stepToken pl.id tok d).position = some pc) :
    ((applyMove st i tok d).players.get? i =
      some { pl with tokens := (updateFirst (fun t => decide (t = tok))
          (fun _ => stepToken pl.id tok d) pl.tokens) }) ∧
    (∀ j q, j ≠ i → st.players.get? j = some q → q.id ≠ pl.id →
      (applyMove st i tok d).players.get? j =
        some { q with tokens := q.tokens.map (captureToken q.id pc) }) ∧
    (∀ pid (ot : Token), 0 ≤ ot.position → ot.finished = false →
      getBoardCoordForPosition pid ot.position = some pc →
      captureToken pid pc ot = { ot with position := -1 }) ∧
    (∀ pid (ot : Token), getBoardCoordForPosition pid ot.position ≠ some pc →
      captureToken pid pc ot = ot) := by
  rw [applyMove_players_eq st i tok d pl hg (not_lt.mpr hring) pc hpc]
  have hi : i < st.players.length := by
    rcases List.get?_eq_some.mp hg with ⟨h, _⟩
    exact h
  refine ⟨?_, ?_, ?_, ?_⟩
  · rw [capturePlayers_get?, List.get?_set_eq_of_lt _ hi]
    simp
  · intro j q hj hq hqid
    rw [capturePlayers_get?, List.get?_set_ne _ _ hj.symm, hq]
    simp [hqid]
  · intro pid ot h0 hf hoc
    unfold captureToken
    rw [if_neg (by simp [hf]; omega), hoc]
    simp
  · intro pid ot hoc
    unfold captureToken
    split
    · rfl
    · rename_i hcond
      cases hx : getBoardCoordForPosition pid ot.position with
      | none => rfl
      | some oc =>
        rw [hx] at hoc
        simp only [Ne, Option.some.injEq] at hoc
        simp [hoc]

/-- Witness for the amended C3 at the concrete counterexample state: after
player 0 moves token 0 to ring cell 7 (coordinate (8, 6)), player 1 holds
exactly the capture-scanned tokens. -/
theorem C3_capture_by_coordinate_witness :
    (applyMove stC3 0 { id := 0, position := 4, finished := false } 3).players.get? 1 =
      some { id := 1
             tokens := List.map (captureToken 1 (8, 6))
               [{ id := 0, position := 15, finished := false },
                 baseToken 1, baseToken 2, baseToken 3] } :=
  (C3_capture_by_coordinate stC3 0 { id := 0, position := 4, finished := false } 3
      { id := 0
        tokens := [{ id := 0, position := 4, finished := false },
          { id := 1, position := 0, finished := false }, baseToken 2, baseToken 3] }
      (by decide) (by decide) (8, 6) (by decide)).2.1 1
    { id := 1
      tokens := [{ id := 0, position := 15, finished := false },
        baseToken 1, baseToken 2, baseToken 3] }
    (by decide) (by decide) (by decide)

/-- C4: the claim takes the spec total of `entry + 51 + 6` relative steps
for a full AtBase-to-Finished walk.  In the code `stepsToEntry` is 10 for
every player, so the finish slot lies only 16 steps past entry, and the
legality cap `target ≤ stepsToEntry + 5` makes even that last step
illegal: from the final home-lane slot, roll 1 (the exact finish) is
rejected although stepping the token would mark it finished.  No legal
move sequence from AtBase ever reaches Finished, and the would-be total
is 16 steps, not 57. -/
theorem C4_total_steps_mismatch :
    stepsToEntry 0 = 10 ∧
    canTokenMove 0 C4tok 1 = false ∧
    (stepToken 0 C4tok 1).position = stepsToEntry 0 + 6 ∧
    (stepToken 0 C4tok 1).finished = true := by decide

/-- C5 counterexample: `createGame` performs no player-count validation;
called with 5 it happily returns a populated match state instead of
failing with InvalidPlayerCount. -/
theorem C5_counterexample :
    (createGame 5).numPlayers = 5 ∧
    (createGame 5).players.length = 5 ∧
    (createGame 5).gameOver = false ∧
    (createGame 5).currentPlayerIdx = 0 := by decide

/-- C5 amended: `createGame` accepts every player count without
validation and returns a state with that many players, each holding four
unfinished tokens in the yard; in particular for the counts 2..4 the
claimed success case holds. -/
theorem C5_amended_no_validation (n : Nat) :
    (createGame n).players.length = n ∧
    ((createGame n).players.all fun pl =>
      pl.tokens.all fun t => decide (t.position = -1) && !t.finished) = true ∧
    (createGame n).numPlayers = n ∧
    (createGame n).gameOver = false := by
  refine ⟨by simp [createGame], ?_, rfl, rfl⟩
  simp only [createGame, List.all_eq_true, List.mem_map]
  rintro pl ⟨i, _, rfl⟩ x hx
  simp only [List.mem_map, List.mem_range] at hx
  obtain ⟨t, _, rfl⟩ := hx
  simp

/-- C6 counterexample: a roll of 6 whose move is auto-applied keeps the
same player, but `lastRoll` is NOT cleared — the dice keeps the value 6
(`postMoveAdvance` returns before `nextTurn`, and only `nextTurn` nulls
the dice). -/
theorem C6_counterexample :
    (rollDice stC6 6).currentPlayerIdx = stC6.currentPlayerIdx ∧
    (rollDice stC6 6).dice = some 6 ∧
    ¬ (rollDice stC6 6).dice = none := by decide

/-- C6 amended: after a move on a roll of 6 that does not end the game,
the post-move step leaves the whole state unchanged: the same player
keeps the turn, and the dice still holds the 6 (it is cleared only when
the turn later passes or the next roll overwrites it). -/
theorem C6_extra_turn_keeps_dice (st : GameState) (pl : Player)
    (hpl : currentPlayer st = some pl)
    (hnf : allTokensFinished pl = false) :
    postMoveAdvance st 6 = st := by
  unfold postMoveAdvance
  rw [hpl]
  simp [hnf]

/-- Witness for the amended C6 at a concrete post-move state. -/
theorem C6_extra_turn_keeps_dice_witness :
    postMoveAdvance { stC6 with dice := some 6 } 6 = { stC6 with dice := some 6 } :=
  C6_extra_turn_keeps_dice _
    { id := 0
      tokens := [{ id := 0, position := 0, finished := false },
        { id := 1, position := 10, finished := false },
        { id := 2, position := 10, finished := false },
        { id := 3, position := 10, finished := false }] }
    (by decide) (by decide)

/-- C7: a roll for which the current player has no movable token stores
the dice, then immediately passes the turn: the result is exactly
`nextTurn` of the rolled state, so the player index advances once
modulo `numPlayers`, the dice is cleared, no move is awaited (no
`selectToken` is needed), and no piece moves. -/
theorem C7_empty_roll_skips_turn (st : GameState) (d : Int) (pl : Player)
    (hgo : st.gameOver = false) (ham : st.awaitingMove = false)
    (hpl : currentPlayer st = some pl)
    (hmv : movables pl d = []) :
    rollDice st d = nextTurn { st with dice := some d } ∧
    (rollDice st d).currentPlayerIdx = (st.currentPlayerIdx + 1) % st.numPlayers ∧
    (rollDice st d).dice = none ∧
    (rollDice st d).awaitingMove = false ∧
    (rollDice st d).players = st.players := by
  have hpl2 : st.players.get? st.currentPlayerIdx = some pl := hpl
  have h1 : rollDice st d = nextTurn { st with dice := some d } := by
    unfold rollDice currentPlayer
    rw [hgo, ham]
    simp only [Bool.false_eq_true, if_false]
    rw [hpl2]
    dsimp only
    rw [hmv]
  refine ⟨h1, ?_, ?_, ?_, ?_⟩ <;> rw [h1] <;> simp [nextTurn, ham]

/-- Witness for C7: all tokens in the yard and a roll of 3 leave no legal
move, so the turn passes to player 1 at once. -/
theorem C7_empty_roll_skips_turn_witness :
    rollDice stC7 3 = nextTurn { stC7 with dice := some 3 } ∧
    (rollDice stC7 3).currentPlayerIdx = (stC7.currentPlayerIdx + 1) % stC7.numPlayers ∧
    (rollDice stC7 3).dice = none ∧
    (rollDice stC7 3).awaitingMove = false ∧
    (rollDice stC7 3).players = stC7.players :=
  C7_empty_roll_skips_turn stC7 3
    { id := 0, tokens := [baseToken 0, baseToken 1, baseToken 2, baseToken 3] }
    (by decide) (by decide) (by decide) (by decide)

/-- C8: rejected intents are exact no-ops on the state.  A roll while a
move is awaited or after game over returns the state unchanged; a token
selection while no move is awaited returns the state unchanged; and a
selection naming a token that fails `canTokenMove` (outside the legal
set) returns the state unchanged. -/
theorem C8_reject_is_noop (st : GameState) (d : Int) (tid : Nat) :
    (st.awaitingMove = true → rollDice st d = st) ∧
    (st.gameOver = true → rollDice st d = st) ∧
    (st.awaitingMove = false → selectToken st tid = st) ∧
    (∀ pl t dv, currentPlayer st = some pl → st.dice = some dv →
      pl.tokens.find? (fun x => decide (x.id = tid)) = some t →
      canTokenMove pl.id t dv = false →
      selectToken st tid = st) := by
  refine ⟨?_, ?_, ?_, ?_⟩
  · intro h; unfold rollDice; simp [h]
  · intro h; unfold rollDice; simp [h]
  · intro h; unfold selectToken; simp [h]
  · intro pl t dv hpl hdice hfind hcan
    unfold selectToken
    cases ham : st.awaitingMove
    · simp
    · simp only [Bool.true_eq_false, if_false]
      rw [hpl, hdice]
      dsimp only
      rw [hfind]
      simp [hcan]

/-- Witness for C8 at concrete states: a roll while awaiting a move, a
roll and a selection after game over (whose phase is not AwaitingMove),
and a selection of an illegal token each leave the state untouched. -/
theorem C8_reject_is_noop_witness :
    rollDice stC8a 5 = stC8a ∧
    selectToken stC8a 0 = stC8a ∧
    rollDice stC8b 2 = stC8b ∧
    selectToken stC8b 0 = stC8b :=
  ⟨(C8_reject_is_noop stC8a 5 0).1 rfl,
   (C8_reject_is_noop stC8a 5 0).2.2.2
     { id := 0
       tokens := [{ id := 0, position := 12, finished := false },
         { id := 1, position := 0, finished := false },
         baseToken 2, baseToken 3] }
     { id := 0, position := 12, finished := false } 5
     (by decide) (by decide) (by decide) (by decide),
   (C8_reject_is_noop stC8b 2 0).2.1 rfl,
   (C8_reject_is_noop stC8b 2 0).2.2.1 rfl⟩

/-- C9: a yard token (position -1, not finished) is movable exactly on a
roll of 6, and stepping it puts it at path position 0 — the entry cell of
its player — consuming the whole roll, with the finished flag still
clear. -/
theorem C9_base_entry (pid : Nat) (t : Token) (d : Int)
    (hpos : t.position = -1) (hfin : t.finished = false)
    (_h1 : 1 ≤ d) (_h6 : d ≤ 6) :
    (canTokenMove pid t d = true ↔ d = 6) ∧
    (stepToken pid t d).position = 0 ∧
    (stepToken pid t d).finished = false := by
  have hs : 0 ≤ stepsToEntry pid :=
    Int.emod_nonneg _ (by norm_num)
  refine ⟨?_, ?_, ?_⟩
  · simp [canTokenMove, hpos, hfin]
  · simp [stepToken, hpos]
  · simp [stepToken, hpos, hfin]
    omega

/-- Witness for C9: a fresh yard token of player 0 with a roll of 6. -/
theorem C9_base_entry_witness :
    (canTokenMove 0 (baseToken 0) 6 = true ↔ (6 : Int) = 6) ∧
    (stepToken 0 (baseToken 0) 6).position = 0 ∧
    (stepToken 0 (baseToken 0) 6).finished = false :=
  C9_base_entry 0 (baseToken 0) 6 rfl rfl (by decide) (by decide)

/-- C10: in every state reachable from a fresh match through the two
public intents, the game-over flag is false and every token of every
player has a clear `finished` flag: the legality cap
`target ≤ stepsToEntry + 5` keeps every legal move short of the finish
position `stepsToEntry + 6` where `applyMove` sets the flag, so no token
ever finishes and no player can ever win. -/
theorem C10_no_token_ever_finishes (st : GameState) (h : Reachable st) :
    st.gameOver = false ∧
    ∀ pl ∈ st.players, ∀ t ∈ pl.tokens, t.finished = false := by
  have hinv : Inv st := by
    induction h with
    | init n => exact inv_createGame n
    | roll st2 d _ ih => exact rollDice_inv st2 d ih
    | select st2 tid _ ih => exact selectToken_inv st2 tid ih
  exact ⟨hinv.1, fun pl hpl => (hinv.2 pl hpl).2⟩

/-- Witness for C10 at a concrete reachable state: a fresh 2-player match
after one roll of 6. -/
theorem C10_no_token_ever_finishes_witness :
    (rollDice (createGame 2) 6).gameOver = false ∧
    ∀ pl ∈ (rollDice (createGame 2) 6).players, ∀ t ∈ pl.tokens,
      t.finished = false :=
  C10_no_token_ever_finishes _ (Reachable.roll _ 6 (Reachable.init 2))

end Ludo
